import Mathlib

/-!
Verification of the rescue-api credential issuance engine.

This file gives a shallow embedding, in Lean 4, of the parts of the
Rocket-Rescue-Node rescue-api repository that its specification talks
about: the quota records, the request-message grammar, the registry
staleness gate, the credential issuance transaction, the retry loop,
the registry refresher tasks, the registry replacement semantics,
signature recovery normalisation, the operator-type query parameter,
and the signed-request validation pipeline.  Times are modelled as
integer seconds, node identifiers as natural numbers, and the SQL
event store as a list of event rows; external collaborators (the
ECDSA library, the Ethereum text hash) are parameters of the
definitions that call them.
-/

namespace RescueApi

/-- Node identifiers (20-byte Ethereum addresses).  The engine treats them as
opaque bytes compared bytewise, so they are modelled as natural numbers with
decidable equality. -/
abbrev NodeID := Nat

/-- Error kinds raised by the service layer: ValidationError,
AuthenticationError and AuthorizationError from services/service.go, plus a
kind for internal storage failures. -/
inductive ErrKind where
  | validation
  | authentication
  | authorization
  | internal
deriving DecidableEq, Repr

/-- Operator types from the credentials protobuf enum: OT_ROCKETPOOL and
OT_SOLO are the two populated quota keys; every other enum value behaves as
an unknown type that falls back to the defaults. -/
inductive OperatorType where
  | rocketpool
  | solo
  | unspecified
deriving DecidableEq, Repr

/-- A credential will be reused if it is valid for at least this long
(48 hours, in seconds); constant credsMinValidityWindow in
services/credentials.go. -/
def credsMinValidityWindow : Int := 48 * 3600

/-- The maximum age for a credential request to be considered valid
(15 minutes, in seconds); constant credsRequestMaxAge in
services/credentials.go. -/
def credsRequestMaxAge : Int := 15 * 60

/-- The maximum age of the node registry before being considered outdated
(1 hour, in seconds); constant nodeRegistryMaxAge in services/service.go. -/
def nodeRegistryMaxAge : Int := 3600

/-- A quota record: maximum number of new credentials per window, the window
length, and the validity window of an issued credential; durations in
seconds.  Mirrors the quota struct of services/credentials.go. -/
structure Quota where
  count : Nat
  window : Int
  authValidityWindow : Int
deriving DecidableEq, Repr

/-- The quotas map of services/credentials.go: ROCKETPOOL gets
(4, 365 days, 15 days) and SOLO gets (3, 365 days, 10 days); other operator
types are absent from the map. -/
def quotas : OperatorType → Option Quota
  | .rocketpool => some ⟨4, 365 * 24 * 3600, 15 * 24 * 3600⟩
  | .solo => some ⟨3, 365 * 24 * 3600, 10 * 24 * 3600⟩
  | .unspecified => none

/-- Window length for the quota calculation; defaults to a year when the
operator type is not in the quotas map.  Function credsQuotaWindow of
services/credentials.go. -/
def credsQuotaWindow (ot : OperatorType) : Int :=
  match quotas ot with
  | none => 365 * 24 * 3600
  | some q => q.window

/-- Maximum number of credentials per window; defaults to one when the
operator type is not in the quotas map.  Function credsQuota of
services/credentials.go. -/
def credsQuota (ot : OperatorType) : Int :=
  match quotas ot with
  | none => 1
  | some q => (q.count : Int)

/-- Validity window of an issued credential; defaults to 10 days when the
operator type is not in the quotas map.  Function AuthValidityWindow of
services/credentials.go. -/
def AuthValidityWindow (ot : OperatorType) : Int :=
  match quotas ot with
  | none => 10 * 24 * 3600
  | some q => q.authValidityWindow

/-- Membership test of the in-memory registry (NodeRegistry.Has in
models/node.go): the registry content is modelled as the list of addresses
currently stored in the map. -/
def regHas (registry : List NodeID) (a : NodeID) : Bool :=
  registry.contains a

/-- isNodeRegistered from services/service.go: if the clock is past
LastUpdated plus nodeRegistryMaxAge the registry is stale and every node is
considered unregistered; otherwise membership in the node registry
decides. -/
def isNodeRegistered (now lastUpdated : Int) (nodes : List NodeID)
    (nodeID : NodeID) : Bool :=
  if now > lastUpdated + nodeRegistryMaxAge then
    false
  else
    regHas nodes nodeID

/-- isWithdrawalAddress from services/service.go: identical staleness gate
over the withdrawal address registry. -/
def isWithdrawalAddress (now lastUpdated : Int)
    (withdrawalAddresses : List NodeID) (nodeID : NodeID) : Bool :=
  if now > lastUpdated + nodeRegistryMaxAge then
    false
  else
    regHas withdrawalAddresses nodeID

/-- ASCII lower-casing of a single character, the case folding relevant to
the case-insensitive regexp flag and to strings.EqualFold on the ASCII
inputs this service compares. -/
def asciiLower (c : Char) : Char :=
  if 65 ≤ c.toNat ∧ c.toNat ≤ 90 then Char.ofNat (c.toNat + 32) else c

/-- The Unicode simple case-fold orbit of an ASCII character, as closed by
the Unicode case-orbit table that strings.EqualFold walks with
unicode.SimpleFold: plain letters pair with their other case, while the only
ASCII characters with a larger orbit are K and k (joined by the Kelvin sign,
U+212A) and S and s (joined by Latin small long s, U+017F); non-letters fold
only to themselves. -/
def simpleFoldOrbitAscii (a : Char) : List Char :=
  if a = 'K' ∨ a = 'k' then ['K', 'k', Char.ofNat 0x212A]
  else if a = 'S' ∨ a = 's' then ['S', 's', Char.ofNat 0x17F]
  else if 'A' ≤ a ∧ a ≤ 'Z' then [a, Char.ofNat (a.toNat + 32)]
  else if 'a' ≤ a ∧ a ≤ 'z' then [Char.ofNat (a.toNat - 32), a]
  else [a]

/-- One rune comparison step of strings.EqualFold against an ASCII rune: the
left rune matches exactly when it lies in the simple-fold orbit of the
right one. -/
def foldMatchAscii (c a : Char) : Bool :=
  (simpleFoldOrbitAscii a).contains c

/-- strings.EqualFold for the comparisons this service performs, whose right
argument is always an ASCII literal: the strings are fold-equal exactly when
they have the same rune length and each rune of the left string lies in the
Unicode simple-fold orbit of the corresponding rune of the right string. -/
def equalFold (s t : String) : Bool :=
  s.data.length == t.data.length &&
  ((s.data.zip t.data).all fun p => foldMatchAscii p.1 p.2)

/-- The credential request pattern, case-insensitive
"Rescue Node " followed by exactly 10 decimal digits (regexp
credentialRequestPattern in services/credentials.go).  Returns the captured
digit group when the message matches; the message is processed as its
character list. -/
def rescueNodeMatch (msg : String) : Option (List Char) :=
  let cs := msg.data
  let head12 := cs.take 12
  let digits := cs.drop 12
  if (head12.map asciiLower == "Rescue Node ".data.map asciiLower) &&
      digits.length == 10 && digits.all Char.isDigit then
    some digits
  else
    none

/-- Decimal value of a digit-character list (strconv.ParseInt on the capture
group; ten decimal digits never overflow int64). -/
def digitsToInt (ds : List Char) : Int :=
  ((ds.foldl (fun n c => n * 10 + (c.toNat - 48)) 0 : Nat) : Int)

/-- getTimestampFromRequest from services/credentials.go: match the request
message against the credential request pattern and parse the captured
digits; a mismatch is a validation error. -/
def getTimestampFromRequest (msg : String) : Except ErrKind Int :=
  match rescueNodeMatch msg with
  | none => .error .validation
  | some ds => .ok (digitsToInt ds)

/-- checkRequestAge from services/service.go: parse the timestamp out of the
message (any failure becomes a validation error) and reject timestamps more
than credsRequestMaxAge in the past with an authentication error. -/
def checkRequestAge (now : Int) (msg : String) : Except ErrKind Unit :=
  match getTimestampFromRequest msg with
  | .error _ => .error .validation
  | .ok ts => if now - ts > credsRequestMaxAge then .error .authentication
              else .ok ()

/-- Credential event types: ISSUED = 0, REVOKED = 1 (models package). -/
inductive CredentialEventType where
  | issued
  | revoked
deriving DecidableEq, Repr

/-- A row of the credential_events table: node_id, timestamp (seconds), type
and operator_type; primary key (node_id, operator_type, timestamp). -/
structure CredentialEvent where
  nodeId : NodeID
  timestamp : Int
  type : CredentialEventType
  operatorType : OperatorType
deriving DecidableEq, Repr

/-- Row filter of the getCredEventsStmt query: node_id = ?, timestamp > ?,
type = ?, operator_type = ?. -/
def eventMatches (node : NodeID) (since : Int) (ty : CredentialEventType)
    (ot : OperatorType) (e : CredentialEvent) : Bool :=
  decide (e.nodeId = node) && decide (since < e.timestamp) &&
    decide (e.type = ty) && decide (e.operatorType = ot)

/-- The getCredEventsStmt query of services/service.go:
SELECT COALESCE(MAX(timestamp), 0), COUNT(*) over the matching rows.  With no
matching row the max defaults to 0. -/
def maxAndCount (evs : List CredentialEvent) (node : NodeID) (since : Int)
    (ty : CredentialEventType) (ot : OperatorType) : Int × Int :=
  let sel := evs.filter (eventMatches node since ty ot)
  let maxTs :=
    match sel.map (fun e => e.timestamp) with
    | [] => 0
    | t :: ts => ts.foldl max t
  (maxTs, (sel.length : Int))

/-- Outcome of the transactional part of CreateCredential: a reissued
credential carrying the prior timestamp, a newly issued credential carrying
the current time, or the quota authorization error. -/
inductive CCResult where
  | reissued (ts : Int)
  | issued (ts : Int)
  | authorizationError
deriving DecidableEq, Repr

/-- Timestamp of the credential returned to the caller, when one is. -/
def credTimestamp : CCResult → Option Int
  | .reissued ts => some ts
  | .issued ts => some ts
  | .authorizationError => none

/-- The transaction body of CreateCredential (services/credentials.go, after
authentication and authorization): read the last issuance timestamp and the
in-window count, reissue when the last credential is still valid and either
keeps more than credsMinValidityWindow of validity or the quota is exactly
reached; otherwise fail on quota exhaustion or append a new ISSUED event at
the current time.  The single-writer database serialises this read-then-write
block, so it is modelled as one atomic step on the event list. -/
def createCredentialTx (evs : List CredentialEvent) (nodeID : NodeID)
    (ot : OperatorType) (now : Int) : CCResult × List CredentialEvent :=
  let currentWindowStart := now - credsQuotaWindow ot
  let mc := maxAndCount evs nodeID currentWindowStart .issued ot
  let lastCredTimestamp := mc.1
  let credsCount := mc.2
  let created := lastCredTimestamp
  let expires := created + AuthValidityWindow ot
  if expires > now ∧
      (expires - now > credsMinValidityWindow ∨ credsCount = credsQuota ot) then
    (.reissued created, evs)
  else if credsCount ≥ credsQuota ot then
    (.authorizationError, evs)
  else
    (.issued now, evs ++ [⟨nodeID, now, .issued, ot⟩])

/-- Event stores reachable by a sequence of CreateCredential transactions
executed at non-decreasing times (the process clock is monotone); the second
index is the time of the latest step.  Each transaction is atomic because the
single-writer SQLite connection serialises the read-then-insert block. -/
inductive Reachable : List CredentialEvent → Int → Prop where
  | init (t : Int) : Reachable [] t
  | request {evs : List CredentialEvent} {t : Int} (h : Reachable evs t)
      (nodeID : NodeID) (ot : OperatorType) {t2 : Int} (hle : t ≤ t2) :
      Reachable (createCredentialTx evs nodeID ot t2).2 t2

/-- The delay between retries when creating a credential, in milliseconds;
values taken from the SQLite default busy handler (dbTryDelayMs in
services/credentials.go). -/
def dbTryDelayMs : List Nat := [1, 2, 5, 10, 15, 20, 25, 25, 25, 50, 50, 100]

/-- SQLite primary result codes distinguished by the retry loop. -/
inductive SqliteCode where
  | busy
  | locked
  | constraint
  | otherCode
deriving DecidableEq, Repr

/-- An error from one CreateCredential attempt: either an SQLite error with
its code (matched by errors.As in the source) or any other error, tagged by
the service error kind. -/
inductive CredAttemptErr where
  | sqlite (code : SqliteCode)
  | service (kind : ErrKind)
deriving DecidableEq, Repr

/-- The recoverability test of CreateCredentialWithRetry: only SQLite busy,
locked and constraint-violation errors are retried. -/
def recoverableErr : CredAttemptErr → Bool
  | .sqlite .busy => true
  | .sqlite .locked => true
  | .sqlite .constraint => true
  | _ => false

/-- An attempt outcome the retry loop will retry: an error that is an SQLite
busy, locked or constraint violation. -/
def transientFail {α : Type} : Except CredAttemptErr α → Bool
  | .error e => recoverableErr e
  | .ok _ => false

/-- The observable behaviour of one run of the retry loop: the value or error
it returns, the number of attempts made, and the sleeps performed in order
(milliseconds). -/
structure RetryTrace (α : Type) where
  result : Except CredAttemptErr α
  attempts : Nat
  sleeps : List Nat

/-- The loop body of CreateCredentialWithRetry, indexed by the remaining
retry-delay schedule: attempt i; stop on success or on a non-recoverable
error; on a recoverable error sleep the delay of this attempt and continue
until the schedule is exhausted, in which case the last error is returned.
The empty-schedule equation can only arise from an empty delay table and is
never reached from the actual dbTryDelayMs. -/
def retryFrom {α : Type} (attempt : Nat → Except CredAttemptErr α) (i : Nat) :
    List Nat → RetryTrace α
  | [] => ⟨attempt i, i, []⟩
  | d :: rest =>
    match attempt i with
    | .ok c => ⟨.ok c, i + 1, []⟩
    | .error e =>
      if recoverableErr e then
        match rest with
        | [] => ⟨.error e, i + 1, [d]⟩
        | r :: rs =>
          let t := retryFrom attempt (i + 1) (r :: rs)
          ⟨t.result, t.attempts, d :: t.sleeps⟩
      else ⟨.error e, i + 1, []⟩

/-- CreateCredentialWithRetry from services/credentials.go, abstracted over
the outcome of each attempt (attempt n is the n-th call of
CreateCredential, zero-based). -/
def CreateCredentialWithRetry {α : Type}
    (attempt : Nat → Except CredAttemptErr α) : RetryTrace α :=
  retryFrom attempt 0 dbTryDelayMs

/-- One processed tick of UpdateNodesTask.Run (tasks/update_nodes.go): on a
failed refresh the ticker is reset to 30 seconds and LastUpdated is kept; on
success the ticker is reset to 300 seconds and LastUpdated becomes the
current time.  Returns (next tick interval in seconds, new LastUpdated). -/
def nodesTaskTick (refreshErr : Bool) (lastUpdated now : Int) : Int × Int :=
  if refreshErr then (30, lastUpdated) else (300, now)

/-- One processed tick of UpdateWithdrawalAddressesTask.Run
(tasks/update_withdrawal_addresses.go), mirroring the source line by line:
on a refresh error the ticker is reset to 30 seconds, but then the ticker is
unconditionally reset to 300 seconds and LastUpdated is unconditionally set
to the current time.  Returns (next tick interval in seconds, new
LastUpdated). -/
def withdrawalTaskTick (refreshErr : Bool) (lastUpdated now : Int) :
    Int × Int :=
  let interval : Int := if refreshErr then 30 else 300
  let interval : Int := 300
  let lastUpdated : Int := now
  (interval, lastUpdated)

/-- NodeRegistry.Reset (part_012): replace the map with a fresh empty one,
under the write lock. -/
def regReset (_registry : List NodeID) : List NodeID := []

/-- NodeRegistry.Add over a list of ids (part_012): union the ids into the
map, under the write lock. -/
def regAdd (ids : List NodeID) (registry : List NodeID) : List NodeID :=
  ids.foldl (fun reg id => if reg.contains id then reg else reg ++ [id])
    registry

/-- Atomic actions on the withdrawal-address registry: the two writer steps
of one refresh (Reset and Add each acquire the write lock once, so each is
atomic on its own) and a concurrent reader membership test (Has, under the
read lock). -/
inductive RegAction where
  | wReset
  | wAdd (ids : List NodeID)
  | rHas (a : NodeID)

/-- Run an interleaving of atomic registry actions from an initial registry
content, returning the final content and the observation made by every
reader in order. -/
def runRegTrace : List RegAction → List NodeID → List NodeID × List Bool
  | [], reg => (reg, [])
  | .wReset :: rest, reg => runRegTrace rest (regReset reg)
  | .wAdd ids :: rest, reg => runRegTrace rest (regAdd ids reg)
  | .rHas a :: rest, reg =>
    let t := runRegTrace rest reg
    (t.1, regHas reg a :: t.2)

/-- RecoverAddressFromSignature from util (part_013), with the external
cryptographic collaborators passed as parameters: textHash is the Ethereum
personal-sign hash of the message, and sigToPub composes secp256k1 public
key recovery with PubkeyToAddress, returning none when recovery aborts.
Signatures are byte lists r || s || v of length 65 with the recovery id v at
offset 64; v in {27, 28} is reduced by 27 before recovery (and restored by
the source afterwards, which a pure model does not need); v outside
{0, 1, 27, 28} is rejected, as is any other signature length. -/
def RecoverAddressFromSignature (textHash : List Nat → List Nat)
    (sigToPub : List Nat → List Nat → Option NodeID)
    (msg sig : List Nat) : Option NodeID :=
  if sig.length = 65 then
    let v := sig.getD 64 0
    if v = 27 ∨ v = 28 then
      sigToPub (textHash msg) (sig.set 64 (v - 27))
    else if v = 0 ∨ v = 1 then
      sigToPub (textHash msg) sig
    else
      none
  else
    none

/-- Operator type extraction of validateJSONRequest (api, part_002): when the
query string carries the parameter operator_type with at least one value and
its first value equals "solo" under strings.EqualFold, the request operator
type becomes SOLO; otherwise it keeps the default ROCKETPOOL.  The query
string is modelled as an association list from parameter name to value
list. -/
def validateRequestOperatorType (query : List (String × List String)) :
    OperatorType :=
  match query.lookup "operator_type" with
  | some vals =>
    match vals with
    | [] => .rocketpool
    | v :: _ => if equalFold v "solo" then .solo else .rocketpool
  | none => .rocketpool

/-- Resources of the authorization_rules table; only CREDENTIAL_SERVICE = 0
exists (authorization package, part_010). -/
inductive Resource where
  | credentialService
deriving DecidableEq, Repr

/-- Actions of the authorization_rules table: ALLOW = 0, DENY = 1. -/
inductive Action where
  | allow
  | deny
deriving DecidableEq, Repr

/-- A row of the authorization_rules table. -/
structure AuthorizationRule where
  nodeId : NodeID
  resource : Resource
  action : Action
deriving DecidableEq, Repr

/-- isNodeAuthorized from services/service.go: look up a DENY rule for the
node on the resource; the node is authorized exactly when no such row
exists. -/
def isNodeAuthorized (rules : List AuthorizationRule) (nodeID : NodeID)
    (svc : Resource) : Bool :=
  !(rules.any fun r =>
    decide (r.nodeId = nodeID) && decide (r.resource = svc) &&
      decide (r.action = Action.deny))

/-- The stateful resources a request handler can consult for an identity:
the two in-memory registries, the deny-rules table and the credential event
store. -/
inductive Access where
  | nodeRegistry
  | withdrawalRegistry
  | denyRules
  | eventStore
deriving DecidableEq, Repr

/-- The read-only state the validation pipeline runs against: the clock, the
two registries with their freshness timestamps, the solo toggle, the
deny-rules table and the credential event store. -/
structure ServiceEnv where
  now : Int
  nodesLastUpdated : Int
  nodes : List NodeID
  withdrawalLastUpdated : Int
  withdrawalAddresses : List NodeID
  enableSoloValidators : Bool
  rules : List AuthorizationRule
  events : List CredentialEvent

/-- checkNodeAuthorization from services/service.go: ROCKETPOOL requires
node-registry membership, SOLO requires the solo toggle and
withdrawal-registry membership, any other operator type skips the registry
check; in every case a DENY rule forbids access.  The second component lists
the shared resources consulted, in order. -/
def checkNodeAuthorization (env : ServiceEnv) (nodeID : NodeID)
    (ot : OperatorType) : Except ErrKind Unit × List Access :=
  match ot with
  | .rocketpool =>
    if !isNodeRegistered env.now env.nodesLastUpdated env.nodes nodeID then
      (.error .authorization, [.nodeRegistry])
    else if !isNodeAuthorized env.rules nodeID .credentialService then
      (.error .authorization, [.nodeRegistry, .denyRules])
    else
      (.ok (), [.nodeRegistry, .denyRules])
  | .solo =>
    if !env.enableSoloValidators then
      (.error .authorization, [])
    else if !isWithdrawalAddress env.now env.withdrawalLastUpdated
        env.withdrawalAddresses nodeID then
      (.error .authorization, [.withdrawalRegistry])
    else if !isNodeAuthorized env.rules nodeID .credentialService then
      (.error .authorization, [.withdrawalRegistry, .denyRules])
    else
      (.ok (), [.withdrawalRegistry, .denyRules])
  | .unspecified =>
    if !isNodeAuthorized env.rules nodeID .credentialService then
      (.error .authorization, [.denyRules])
    else
      (.ok (), [.denyRules])

/-- validateSignedRequest from services/service.go: check the request age,
recover the node id from the signature (the recovery outcome is the
recovered parameter; none models a recovery failure, which getNodeID turns
into an authentication error), reject with an authentication error when the
recovered id differs from the expected one, then run the authorization
checks.  The second component lists the shared resources consulted for the
identity, in order. -/
def validateSignedRequest (env : ServiceEnv) (msg : String)
    (recovered : Option NodeID) (expectedNodeId : NodeID)
    (ot : OperatorType) : Except ErrKind NodeID × List Access :=
  match checkRequestAge env.now msg with
  | .error e => (.error e, [])
  | .ok _ =>
    match recovered with
    | none => (.error .authentication, [])
    | some nodeID =>
      if nodeID ≠ expectedNodeId then
        (.error .authentication, [])
      else
        match checkNodeAuthorization env nodeID ot with
        | (.error e, acc) => (.error e, acc)
        | (.ok _, acc) => (.ok nodeID, acc)

/-- Insert into a descending-sorted list of timestamps. -/
def insertDesc (x : Int) : List Int → List Int
  | [] => [x]
  | y :: ys => if x ≥ y then x :: y :: ys else y :: insertDesc x ys

/-- Sort timestamps in descending order (ORDER BY timestamp DESC). -/
def sortDesc (l : List Int) : List Int := l.foldr insertDesc []

/-- The getCredEventTimestampsStmt query of services/service.go: timestamps
of rows with node_id = ?, since < timestamp <= until, given type and
operator type, in descending order. -/
def listTimestamps (evs : List CredentialEvent) (node : NodeID)
    (since untilTs : Int) (ty : CredentialEventType) (ot : OperatorType) :
    List Int :=
  sortDesc (((evs.filter fun e =>
    eventMatches node since ty ot e && decide (e.timestamp ≤ untilTs))).map
      fun e => e.timestamp)

/-- GetOperatorInfo from services/operator_info.go: validate the signed
request, then read at most credsQuota of the most recent in-window issuance
timestamps from the event store.  The second component lists the shared
resources consulted, in order. -/
def GetOperatorInfo (env : ServiceEnv) (msg : String)
    (recovered : Option NodeID) (expectedNodeId : NodeID)
    (ot : OperatorType) : Except ErrKind (List Int) × List Access :=
  match validateSignedRequest env msg recovered expectedNodeId ot with
  | (.error e, acc) => (.error e, acc)
  | (.ok nodeID, acc) =>
    let since := env.now - credsQuotaWindow ot
    let ts := listTimestamps env.events nodeID since env.now .issued ot
    (.ok (ts.take (credsQuota ot).toNat), acc ++ [.eventStore])

/-- Claim C4: for every registry state and every address, when now minus
LastUpdated exceeds one hour both isNodeRegistered and isWithdrawalAddress
return false regardless of the set contents, and when it is at most one hour
they return exactly the set membership of the address. -/
theorem registry_staleness_gate (now lastUpdated : Int)
    (nodes withdrawalAddresses : List NodeID) (a : NodeID) :
    (now - lastUpdated > 3600 →
      isNodeRegistered now lastUpdated nodes a = false ∧
      isWithdrawalAddress now lastUpdated withdrawalAddresses a = false) ∧
    (now - lastUpdated ≤ 3600 →
      (isNodeRegistered now lastUpdated nodes a = true ↔ a ∈ nodes) ∧
      (isWithdrawalAddress now lastUpdated withdrawalAddresses a = true ↔
        a ∈ withdrawalAddresses)) := by
  unfold isNodeRegistered isWithdrawalAddress nodeRegistryMaxAge regHas
  constructor
  · intro h
    rw [if_pos (by omega), if_pos (by omega)]
    exact ⟨rfl, rfl⟩
  · intro h
    rw [if_neg (by omega), if_neg (by omega)]
    constructor <;> simp

/-- Witness for claim C4 at concrete inputs: a registry refreshed at time 0
denies address 7 at time 5000 (stale) and reports its membership at time
3600 (exactly one hour, still fresh). -/
theorem registry_staleness_gate_witness :
    isNodeRegistered 5000 0 [7] 7 = false ∧
    (isNodeRegistered 3600 0 [7] 7 = true ↔ 7 ∈ [7]) :=
  ⟨((registry_staleness_gate 5000 0 [7] [] 7).1 (by decide)).1,
   ((registry_staleness_gate 3600 0 [7] [] 7).2 (by decide)).1⟩

/-- Claim C6 (code bug): one processed tick of each refresher task.  The
nodes task behaves as the claim states: on failure it keeps LastUpdated and
reschedules in 30 seconds, on success it sets LastUpdated to the current
time and reschedules in 300 seconds.  The withdrawal-address task however
reschedules in 300 seconds and sets LastUpdated to the current time even
when the refresh failed, because its failure branch is immediately
overridden by the unconditional Reset(300 seconds) and LastUpdated
assignment that follow it. -/
theorem refresher_tick_behaviour (lastUpdated now : Int) :
    nodesTaskTick true lastUpdated now = (30, lastUpdated) ∧
    nodesTaskTick false lastUpdated now = (300, now) ∧
    withdrawalTaskTick true lastUpdated now = (300, now) ∧
    withdrawalTaskTick false lastUpdated now = (300, now) :=
  ⟨rfl, rfl, rfl, rfl⟩

/-- Claim C9 counterexample: the first query value SOLO (upper case) is not
the string solo, yet the request operator type becomes SOLO, because the
source compares the value with strings.EqualFold, which is
case-insensitive. -/
theorem operator_type_counterexample :
    validateRequestOperatorType [("operator_type", ["SOLO"])] = .solo ∧
    "SOLO" ≠ "solo" := by
  exact ⟨rfl, by decide⟩

/-- A rune folds against the s of solo exactly when it is s, S or the Latin
small long s, the full Unicode simple-fold orbit of s. -/
theorem foldMatchAscii_s (c : Char) :
    foldMatchAscii c 's' = true ↔
      (c = 's' ∨ c = 'S' ∨ c = Char.ofNat 0x17F) := by
  unfold foldMatchAscii simpleFoldOrbitAscii
  rw [if_neg (by decide), if_pos (by decide)]
  constructor
  · intro h
    have hmem : c ∈ ['S', 's', Char.ofNat 0x17F] := by simpa using h
    simp only [List.mem_cons, List.not_mem_nil, or_false] at hmem
    tauto
  · intro h
    have hmem : c ∈ ['S', 's', Char.ofNat 0x17F] := by
      simp only [List.mem_cons, List.not_mem_nil, or_false]
      tauto
    simpa using hmem

/-- A rune folds against the o of solo exactly when it is o or O, the full
Unicode simple-fold orbit of o. -/
theorem foldMatchAscii_o (c : Char) :
    foldMatchAscii c 'o' = true ↔ (c = 'o' ∨ c = 'O') := by
  unfold foldMatchAscii simpleFoldOrbitAscii
  rw [if_neg (by decide), if_neg (by decide), if_neg (by decide),
    if_pos (by decide), show Char.ofNat ('o'.toNat - 32) = 'O' from by decide]
  constructor
  · intro h
    have hmem : c ∈ ['O', 'o'] := by simpa using h
    simp only [List.mem_cons, List.not_mem_nil, or_false] at hmem
    tauto
  · intro h
    have hmem : c ∈ ['O', 'o'] := by
      simp only [List.mem_cons, List.not_mem_nil, or_false]
      tauto
    simpa using hmem

/-- A rune folds against the l of solo exactly when it is l or L, the full
Unicode simple-fold orbit of l. -/
theorem foldMatchAscii_l (c : Char) :
    foldMatchAscii c 'l' = true ↔ (c = 'l' ∨ c = 'L') := by
  unfold foldMatchAscii simpleFoldOrbitAscii
  rw [if_neg (by decide), if_neg (by decide), if_neg (by decide),
    if_pos (by decide), show Char.ofNat ('l'.toNat - 32) = 'L' from by decide]
  constructor
  · intro h
    have hmem : c ∈ ['L', 'l'] := by simpa using h
    simp only [List.mem_cons, List.not_mem_nil, or_false] at hmem
    tauto
  · intro h
    have hmem : c ∈ ['L', 'l'] := by
      simp only [List.mem_cons, List.not_mem_nil, or_false]
      tauto
    simpa using hmem

/-- A string is strings.EqualFold-equal to solo exactly when it is four
runes drawn from the simple-fold orbits of s, o, l and o in order. -/
theorem equalFold_solo_iff (v : String) :
    equalFold v "solo" = true ↔
      ∃ c0 c1 c2 c3, v.data = [c0, c1, c2, c3] ∧
        (c0 = 's' ∨ c0 = 'S' ∨ c0 = Char.ofNat 0x17F) ∧
        (c1 = 'o' ∨ c1 = 'O') ∧ (c2 = 'l' ∨ c2 = 'L') ∧
        (c3 = 'o' ∨ c3 = 'O') := by
  unfold equalFold
  rw [show "solo".data = ['s', 'o', 'l', 'o'] from rfl]
  constructor
  · intro h
    simp only [Bool.and_eq_true, beq_iff_eq] at h
    obtain ⟨hlen, hall⟩ := h
    obtain ⟨c0, c1, c2, c3, hv⟩ :
        ∃ c0 c1 c2 c3, v.data = [c0, c1, c2, c3] := by
      cases h0 : v.data with
      | nil => rw [h0] at hlen; simp at hlen
      | cons c0 t0 =>
        cases t0 with
        | nil => rw [h0] at hlen; simp at hlen
        | cons c1 t1 =>
          cases t1 with
          | nil => rw [h0] at hlen; simp at hlen
          | cons c2 t2 =>
            cases t2 with
            | nil => rw [h0] at hlen; simp at hlen
            | cons c3 t3 =>
              cases t3 with
              | nil => exact ⟨c0, c1, c2, c3, rfl⟩
              | cons c4 t4 => rw [h0] at hlen; simp at hlen
    rw [hv] at hall
    simp only [List.zip_cons_cons, List.zip_nil_right, List.all_cons,
      List.all_nil, Bool.and_eq_true, and_true] at hall
    obtain ⟨h0, h1, h2, h3⟩ := hall
    exact ⟨c0, c1, c2, c3, hv, (foldMatchAscii_s c0).mp h0,
      (foldMatchAscii_o c1).mp h1, (foldMatchAscii_l c2).mp h2,
      (foldMatchAscii_o c3).mp h3⟩
  · rintro ⟨c0, c1, c2, c3, hv, h0, h1, h2, h3⟩
    rw [hv]
    rcases h0 with rfl | rfl | rfl <;> rcases h1 with rfl | rfl <;>
      rcases h2 with rfl | rfl <;> rcases h3 with rfl | rfl <;> decide

/-- Claim C9 amended: the request operator type is SOLO exactly when the
query string carries an operator_type parameter whose first value is equal
to solo under strings.EqualFold, that is, under Unicode simple case
folding: four runes drawn in order from the fold orbits of s (s, S or
Latin small long s U+017F), o (o or O), l (l or L) and o; any other value
of the parameter, and its absence, yields ROCKETPOOL. -/
theorem operator_type_solo_iff (query : List (String × List String)) :
    (validateRequestOperatorType query = .solo ↔
      ∃ vals v, query.lookup "operator_type" = some vals ∧
        vals.head? = some v ∧
        ∃ c0 c1 c2 c3, v.data = [c0, c1, c2, c3] ∧
          (c0 = 's' ∨ c0 = 'S' ∨ c0 = Char.ofNat 0x17F) ∧
          (c1 = 'o' ∨ c1 = 'O') ∧ (c2 = 'l' ∨ c2 = 'L') ∧
          (c3 = 'o' ∨ c3 = 'O')) ∧
    (validateRequestOperatorType query ≠ .solo →
      validateRequestOperatorType query = .rocketpool) := by
  unfold validateRequestOperatorType
  cases hq : query.lookup "operator_type" with
  | none => simp
  | some vals =>
    cases vals with
    | nil => simp
    | cons v vs =>
      dsimp only
      by_cases hf : equalFold v "solo" = true
      · rw [if_pos hf]
        exact ⟨⟨fun _ => ⟨v :: vs, v, rfl, rfl, (equalFold_solo_iff v).mp hf⟩,
          fun _ => rfl⟩, fun h => absurd rfl h⟩
      · rw [if_neg hf]
        refine ⟨⟨fun h => absurd h (by decide), ?_⟩, fun _ => rfl⟩
        rintro ⟨vals2, v2, hv, hh, hfold⟩
        injection hv with hv2
        subst hv2
        have hh2 : v = v2 := Option.some.inj hh
        subst hh2
        exact absurd ((equalFold_solo_iff v).mpr hfold) hf

/-- Witness for claim C9 as amended, at concrete inputs: a first value
written with the Latin small long s (U+017F) folds equal to solo under
Unicode simple folding and selects SOLO, and an absent parameter selects
ROCKETPOOL. -/
theorem operator_type_solo_iff_witness :
    validateRequestOperatorType [("operator_type", ["ſolo"])] = .solo ∧
    validateRequestOperatorType [] = .rocketpool :=
  ⟨(operator_type_solo_iff [("operator_type", ["ſolo"])]).1.mpr
      ⟨["ſolo"], "ſolo", rfl, rfl, Char.ofNat 0x17F, 'o', 'l', 'o',
        by decide, by decide, by decide, by decide, by decide⟩,
   (operator_type_solo_iff []).2 (by decide)⟩

/-- Claim C3 counterexample: the message Rescue Node 0 does not match the
case-insensitive 10-digit credential request pattern (it has a single
digit), so the engine classifies it as a VALIDATION error (invalid
timestamp) rather than the AUTHENTICATION error the claim states; the
repository test suite expects ValidationError for exactly this message. -/
theorem rescue_node_zero_counterexample :
    getTimestampFromRequest "Rescue Node 0" = .error .validation ∧
    validateSignedRequest ⟨1700000000, 1700000000, [5], 1700000000, [5],
        true, [], []⟩ "Rescue Node 0" (some 5) 5 .rocketpool =
      (.error .validation, []) ∧
    ErrKind.validation ≠ ErrKind.authentication :=
  ⟨rfl, rfl, by decide⟩

/-- Claim C3 amended: a credential or info request whose signed message is
exactly Rescue Node 0 fails with a VALIDATION error for every validly
signed request and every service state, because the message does not match
the 10-digit timestamp pattern; the expired-timestamp AUTHENTICATION error
arises instead for the well-formed zero timestamp Rescue Node 0000000000
whenever the clock is more than 15 minutes past the epoch. -/
theorem rescue_node_zero_fails_validation (env : ServiceEnv)
    (recovered : Option NodeID) (expected : NodeID) (ot : OperatorType) :
    validateSignedRequest env "Rescue Node 0" recovered expected ot =
      (.error .validation, []) ∧
    GetOperatorInfo env "Rescue Node 0" recovered expected ot =
      (.error .validation, []) ∧
    getTimestampFromRequest "Rescue Node 0000000000" = .ok 0 ∧
    (env.now > credsRequestMaxAge →
      checkRequestAge env.now "Rescue Node 0000000000" =
        .error .authentication) := by
  have hts : getTimestampFromRequest "Rescue Node 0" = .error .validation :=
    rfl
  have hage : checkRequestAge env.now "Rescue Node 0" = .error .validation := by
    unfold checkRequestAge
    rw [hts]
  have hval : validateSignedRequest env "Rescue Node 0" recovered expected
      ot = (.error .validation, []) := by
    unfold validateSignedRequest
    rw [hage]
  refine ⟨hval, ?_, rfl, ?_⟩
  · unfold GetOperatorInfo
    rw [hval]
  · intro h
    unfold checkRequestAge
    rw [show getTimestampFromRequest "Rescue Node 0000000000" = .ok 0 from
      rfl]
    dsimp only
    rw [if_pos (by omega)]

/-- Witness for claim C3 as amended, at concrete inputs: with the clock at
1000 seconds the malformed message draws a validation error and the
well-formed zero timestamp draws the expired-timestamp authentication
error. -/
theorem rescue_node_zero_fails_validation_witness :
    validateSignedRequest ⟨1000, 0, [], 0, [], false, [], []⟩
      "Rescue Node 0" (some 1) 1 .rocketpool = (.error .validation, []) ∧
    checkRequestAge 1000 "Rescue Node 0000000000" = .error .authentication :=
  ⟨(rescue_node_zero_fails_validation ⟨1000, 0, [], 0, [], false, [], []⟩
      (some 1) 1 .rocketpool).1,
   (rescue_node_zero_fails_validation ⟨1000, 0, [], 0, [], false, [], []⟩
      (some 1) 1 .rocketpool).2.2.2 (by decide)⟩

/-- Membership after NodeRegistry.Add: the union of the previous registry
content and the added ids. -/
theorem mem_regAdd (ids : List NodeID) (reg : List NodeID) (a : NodeID) :
    a ∈ regAdd ids reg ↔ a ∈ reg ∨ a ∈ ids := by
  induction ids generalizing reg with
  | nil => simp [regAdd]
  | cons i is ih =>
    show a ∈ regAdd is (if reg.contains i then reg else reg ++ [i]) ↔ _
    rw [ih]
    by_cases hc : reg.contains i = true
    · rw [if_pos hc]
      have hi : i ∈ reg := by simpa using hc
      simp only [List.mem_cons]
      constructor
      · rintro (h | h)
        · exact Or.inl h
        · exact Or.inr (Or.inr h)
      · rintro (h | h | h)
        · exact Or.inl h
        · exact Or.inl (h ▸ hi)
        · exact Or.inr h
    · rw [if_neg hc]
      simp only [List.mem_append, List.mem_singleton, List.mem_cons]
      tauto

/-- Claim C7 counterexample: one refresher performing Reset then Add (two
separately locked steps) interleaved with a single reader scheduled between
them.  Address 1 is in the registry before the replacement and in the new
list installed by it, yet the reader observes false: the reader saw the
empty set, so the replacement is not one single logical update from the
reader viewpoint. -/
theorem withdrawal_replacement_counterexample :
    regHas [1] 1 = true ∧
    (runRegTrace [.wReset, .rHas 1, .wAdd [1]] [1]).2 = [false] ∧
    (runRegTrace [.wReset, .rHas 1, .wAdd [1]] [1]).1 = [1] :=
  ⟨rfl, rfl, rfl⟩

/-- Claim C7 amended: each registry operation (Reset, Add, Has) is
individually atomic under the registry lock, and once the Add step of a
refresh completes a reader sees exactly the membership of the new list; but
the Reset-then-Add pair is not atomic: in every run that schedules a reader
between the two steps, that reader observes the empty set, whatever the
prior content and the new list. -/
theorem withdrawal_replacement_semantics (init newList : List NodeID)
    (a : NodeID) :
    (a ∈ regAdd newList (regReset init) ↔ a ∈ newList) ∧
    (runRegTrace [.wReset, .rHas a, .wAdd newList] init).2 = [false] ∧
    (runRegTrace [.wReset, .rHas a, .wAdd newList] init).1 =
      regAdd newList [] := by
  refine ⟨?_, rfl, rfl⟩
  rw [show regReset init = [] from rfl, mem_regAdd]
  simp

/-- Claim C10: for every request validated through validateSignedRequest
(the operator-info path and the credential path that thread the expected
node id), if the address recovered from the signature differs from the
address supplied in the request body, the operation fails with an
AUTHENTICATION error and consults neither registry, nor the deny-rules
table, nor the event store for that identity. -/
theorem signed_request_mismatch_rejected (env : ServiceEnv) (msg : String)
    (a expectedNodeId : NodeID) (ot : OperatorType)
    (hage : checkRequestAge env.now msg = .ok ())
    (hne : a ≠ expectedNodeId) :
    validateSignedRequest env msg (some a) expectedNodeId ot =
      (.error .authentication, []) ∧
    GetOperatorInfo env msg (some a) expectedNodeId ot =
      (.error .authentication, []) := by
  have h1 : validateSignedRequest env msg (some a) expectedNodeId ot =
      (.error .authentication, []) := by
    unfold validateSignedRequest
    rw [hage]
    dsimp only
    rw [if_pos hne]
  refine ⟨h1, ?_⟩
  unfold GetOperatorInfo
  rw [h1]

/-- Witness for claim C10 at concrete inputs: the recovered address 1
differs from the supplied address 2, so the request is rejected with an
authentication error and an empty access list. -/
theorem signed_request_mismatch_rejected_witness :
    validateSignedRequest ⟨0, 0, [], 0, [], false, [], []⟩
      "Rescue Node 0000000000" (some 1) 2 .rocketpool =
      (.error .authentication, []) :=
  (signed_request_mismatch_rejected ⟨0, 0, [], 0, [], false, [], []⟩
    "Rescue Node 0000000000" 1 2 .rocketpool rfl (by decide)).1

/-- Reading index 64 of a 64-byte r and s block followed by the recovery
byte yields the recovery byte. -/
theorem append_single_getD (rs : List Nat) (x : Nat) (h : rs.length = 64) :
    (rs ++ [x]).getD 64 0 = x := by
  rw [List.getD_eq_getElem?_getD, List.getElem?_append_right (by omega)]
  simp [h]

/-- Writing index 64 of a 64-byte r and s block followed by the recovery
byte replaces the recovery byte. -/
theorem append_single_set (rs : List Nat) (x y : Nat) (h : rs.length = 64) :
    (rs ++ [x]).set 64 y = rs ++ [y] := by
  rw [List.set_append_right _ _ (by omega)]
  simp [h]

/-- Evaluation of RecoverAddressFromSignature on a well-length signature,
split by the recovery byte. -/
theorem recover_eval (textHash : List Nat → List Nat)
    (sigToPub : List Nat → List Nat → Option NodeID)
    (msg rs : List Nat) (x : Nat) (h64 : rs.length = 64) :
    RecoverAddressFromSignature textHash sigToPub msg (rs ++ [x]) =
      (if x = 27 ∨ x = 28 then sigToPub (textHash msg) (rs ++ [x - 27])
       else if x = 0 ∨ x = 1 then sigToPub (textHash msg) (rs ++ [x])
       else none) := by
  unfold RecoverAddressFromSignature
  rw [if_pos (by simp [h64])]
  dsimp only
  rw [append_single_getD rs x h64]
  by_cases h27 : x = 27 ∨ x = 28
  · rw [if_pos h27, if_pos h27, append_single_set rs x (x - 27) h64]
  · rw [if_neg h27, if_neg h27]

/-- Claim C8: signature recovery fails for every signature whose length is
not 65 bytes and for every recovery byte v outside {0, 1, 27, 28}; for v in
{27, 28} it subtracts 27 before recovery, so recovery over the same message
and the same (r, s) bytes returns the same address for v and v + 27; and
whenever the external recovery collaborator returns address A on the
normalised signature, the request signed by A recovers A for every accepted
v carrying that (r, s).  textHash and sigToPub are the external Ethereum
text hash and the secp256k1 recovery composed with PubkeyToAddress. -/
theorem recover_address_from_signature_spec
    (textHash : List Nat → List Nat)
    (sigToPub : List Nat → List Nat → Option NodeID)
    (msg sig : List Nat) :
    (sig.length ≠ 65 →
      RecoverAddressFromSignature textHash sigToPub msg sig = none) ∧
    (sig.length = 65 →
      ¬(sig.getD 64 0 = 0 ∨ sig.getD 64 0 = 1 ∨ sig.getD 64 0 = 27 ∨
        sig.getD 64 0 = 28) →
      RecoverAddressFromSignature textHash sigToPub msg sig = none) ∧
    (∀ rs : List Nat, ∀ v : Nat, rs.length = 64 → (v = 0 ∨ v = 1) →
      RecoverAddressFromSignature textHash sigToPub msg (rs ++ [v + 27]) =
        RecoverAddressFromSignature textHash sigToPub msg (rs ++ [v])) ∧
    (∀ rs : List Nat, ∀ v : Nat, ∀ A : NodeID, rs.length = 64 →
      (v = 0 ∨ v = 1 ∨ v = 27 ∨ v = 28) →
      sigToPub (textHash msg) (rs ++ [if v ≥ 27 then v - 27 else v]) =
        some A →
      RecoverAddressFromSignature textHash sigToPub msg (rs ++ [v]) =
        some A) := by
  refine ⟨?_, ?_, ?_, ?_⟩
  · intro h
    unfold RecoverAddressFromSignature
    rw [if_neg h]
  · intro h1 h2
    unfold RecoverAddressFromSignature
    rw [if_pos h1]
    dsimp only
    rw [if_neg (by tauto), if_neg (by tauto)]
  · rintro rs v h64 (rfl | rfl)
    · rw [recover_eval textHash sigToPub msg rs 27 h64,
        recover_eval textHash sigToPub msg rs 0 h64]
      simp
    · rw [recover_eval textHash sigToPub msg rs 28 h64,
        recover_eval textHash sigToPub msg rs 1 h64]
      simp
  · rintro rs v A h64 (rfl | rfl | rfl | rfl) hrec
    · rw [recover_eval textHash sigToPub msg rs 0 h64]
      simpa using hrec
    · rw [recover_eval textHash sigToPub msg rs 1 h64]
      simpa using hrec
    · rw [recover_eval textHash sigToPub msg rs 27 h64]
      simpa using hrec
    · rw [recover_eval textHash sigToPub msg rs 28 h64]
      simpa using hrec

/-- Witness for claim C8 at concrete inputs: a constant recovery
collaborator returning address 9 before the address restoration step, a
64-byte zero (r, s) block and recovery byte 27. -/
theorem recover_address_from_signature_witness :
    RecoverAddressFromSignature (fun h => h) (fun _ _ => some 9) [1, 2]
      (List.replicate 64 0 ++ [27]) = some 9 :=
  (recover_address_from_signature_spec (fun h => h) (fun _ _ => some 9)
    [1, 2] []).2.2.2 (List.replicate 64 0) 27 9 (by simp) (by tauto) rfl

/-- The retry loop makes at most one attempt per entry of the remaining
delay schedule. -/
theorem retryFrom_attempts_le {α : Type}
    (attempt : Nat → Except CredAttemptErr α) :
    ∀ (l : List Nat) (i : Nat),
      (retryFrom attempt i l).attempts ≤ i + l.length := by
  intro l
  induction l with
  | nil => intro i; simp [retryFrom]
  | cons d rest ih =>
    intro i
    unfold retryFrom
    cases hA : attempt i with
    | ok c => simp
    | error e =>
      dsimp only
      by_cases hr : recoverableErr e = true
      · rw [if_pos hr]
        cases rest with
        | nil => simp
        | cons r rs =>
          dsimp only
          have := ih (i + 1)
          simp only [List.length_cons] at this ⊢
          omega
      · rw [if_neg hr]
        simp

/-- When the first k attempts fail transiently and attempt k does not (it
succeeds or fails non-transiently), the retry loop stops at attempt k,
returning its outcome after k+1 attempts and sleeping the first k entries
of the schedule in between. -/
theorem retryFrom_stop {α : Type} (attempt : Nat → Except CredAttemptErr α) :
    ∀ (k i : Nat) (l : List Nat), k < l.length →
    (∀ j, j < k → transientFail (attempt (i + j)) = true) →
    transientFail (attempt (i + k)) = false →
    retryFrom attempt i l = ⟨attempt (i + k), i + k + 1, l.take k⟩ := by
  intro k
  induction k with
  | zero =>
    intro i l hk _ hstop
    rw [Nat.add_zero] at hstop ⊢
    cases l with
    | nil => simp at hk
    | cons d rest =>
      unfold retryFrom
      cases hA : attempt i with
      | ok c => simp
      | error e =>
        have hr : recoverableErr e = false := by
          rw [hA] at hstop
          simpa [transientFail] using hstop
        dsimp only
        rw [if_neg (by simp [hr])]
        simp
  | succ k ih =>
    intro i l hk hprev hstop
    cases l with
    | nil => simp at hk
    | cons d rest =>
      have h0 : transientFail (attempt i) = true := by
        simpa using hprev 0 (Nat.succ_pos k)
      unfold retryFrom
      cases hA : attempt i with
      | ok c =>
        rw [hA] at h0
        simp [transientFail] at h0
      | error e =>
        have hr : recoverableErr e = true := by
          rw [hA] at h0
          simpa [transientFail] using h0
        dsimp only
        rw [if_pos hr]
        cases rest with
        | nil => simp at hk
        | cons r rs =>
          have hrec := ih (i + 1) (r :: rs)
            (by simp only [List.length_cons] at hk ⊢; omega)
            (fun j hj => by
              have := hprev (j + 1) (by omega)
              rwa [show i + (j + 1) = i + 1 + j by omega] at this)
            (by rwa [show i + (k + 1) = i + 1 + k by omega] at hstop)
          dsimp only
          rw [hrec]
          rw [show i + 1 + k = i + (k + 1) by omega, List.take_succ_cons]

/-- When every attempt of the remaining schedule fails transiently, the
retry loop runs the whole schedule, sleeps every entry, and returns the
error of the last attempt. -/
theorem retryFrom_exhaust {α : Type}
    (attempt : Nat → Except CredAttemptErr α) :
    ∀ (l : List Nat) (i : Nat), l ≠ [] →
    (∀ j, j < l.length → transientFail (attempt (i + j)) = true) →
    retryFrom attempt i l =
      ⟨attempt (i + (l.length - 1)), i + l.length, l⟩ := by
  intro l
  induction l with
  | nil => intro i h; exact absurd rfl h
  | cons d rest ih =>
    intro i _ hall
    have h0 : transientFail (attempt i) = true := by
      simpa using hall 0 (by simp)
    unfold retryFrom
    cases hA : attempt i with
    | ok c =>
      rw [hA] at h0
      simp [transientFail] at h0
    | error e =>
      have hr : recoverableErr e = true := by
        rw [hA] at h0
        simpa [transientFail] using h0
      dsimp only
      rw [if_pos hr]
      cases rest with
      | nil => simp [hA]
      | cons r rs =>
        have hrec := ih (i + 1) (by simp)
          (fun j hj => by
            have := hall (j + 1) (by simp only [List.length_cons] at hj ⊢; omega)
            rwa [show i + (j + 1) = i + 1 + j by omega] at this)
        dsimp only
        rw [hrec]
        simp only [List.length_cons]
        rw [show i + 1 + (rs.length + 1 - 1) = i + (rs.length + 1 + 1 - 1)
          by omega]
        rw [show i + 1 + (rs.length + 1) = i + (rs.length + 1 + 1) by omega]

/-- Claim C5: CreateCredentialWithRetry makes at most 12 attempts; it
retries only on SQLite busy, locked or constraint-violation errors; when
the first k attempts fail transiently and attempt k (zero-based) fails with
any other error, that error is returned immediately after k+1 attempts with
the sleeps between attempts being the first k entries of the schedule 1, 2,
5, 10, 15, 20, 25, 25, 25, 50, 50, 100 milliseconds; a success stops the
loop the same way; and when all 12 attempts fail transiently the error of
the last attempt is returned. -/
theorem create_credential_with_retry_spec {α : Type}
    (attempt : Nat → Except CredAttemptErr α) :
    (CreateCredentialWithRetry attempt).attempts ≤ 12 ∧
    (∀ k e, k < 12 → (∀ j, j < k → transientFail (attempt j) = true) →
      attempt k = .error e → recoverableErr e = false →
      CreateCredentialWithRetry attempt =
        ⟨.error e, k + 1, dbTryDelayMs.take k⟩) ∧
    (∀ k c, k < 12 → (∀ j, j < k → transientFail (attempt j) = true) →
      attempt k = .ok c →
      CreateCredentialWithRetry attempt =
        ⟨.ok c, k + 1, dbTryDelayMs.take k⟩) ∧
    ((∀ j, j < 12 → transientFail (attempt j) = true) →
      CreateCredentialWithRetry attempt =
        ⟨attempt 11, 12, dbTryDelayMs⟩) := by
  refine ⟨?_, ?_, ?_, ?_⟩
  · exact retryFrom_attempts_le attempt dbTryDelayMs 0
  · intro k e hk hprev hA hr
    unfold CreateCredentialWithRetry
    rw [retryFrom_stop attempt k 0 dbTryDelayMs hk
      (fun j hj => by rw [Nat.zero_add]; exact hprev j hj)
      (by rw [Nat.zero_add, hA]; simp [transientFail, hr])]
    rw [Nat.zero_add, hA]
  · intro k c hk hprev hA
    unfold CreateCredentialWithRetry
    rw [retryFrom_stop attempt k 0 dbTryDelayMs hk
      (fun j hj => by rw [Nat.zero_add]; exact hprev j hj)
      (by rw [Nat.zero_add, hA]; simp [transientFail])]
    rw [Nat.zero_add, hA]
  · intro hall
    unfold CreateCredentialWithRetry
    rw [retryFrom_exhaust attempt dbTryDelayMs 0 (by simp [dbTryDelayMs])
      (fun j hj => by rw [Nat.zero_add]; exact hall j hj)]
    rfl

/-- Witness for claim C5 at a concrete attempt sequence: the first attempt
fails with SQLite busy, the second succeeds; the loop returns the value
after two attempts, having slept 1 millisecond in between. -/
theorem create_credential_with_retry_witness :
    CreateCredentialWithRetry
      (fun n => if n = 0 then .error (.sqlite .busy) else .ok (5 : Nat)) =
      ⟨.ok 5, 2, [1]⟩ :=
  (create_credential_with_retry_spec
    (fun n => if n = 0 then .error (.sqlite .busy) else .ok (5 : Nat))).2.2.1
    1 5 (by decide) (by decide) rfl

/-- Claim C1: for every CreateCredential call that passes authentication
and authorization, with lastCredTs and credsCount the COALESCE max
timestamp and count of ISSUED events for the identity with timestamp after
now minus the quota window, and expires = lastCredTs plus the auth validity
window: the transaction returns a credential with timestamp lastCredTs and
writes no event exactly when expires > now and (expires minus now exceeds
48 hours or credsCount equals the quota); otherwise, when credsCount is
below the quota, it appends one ISSUED event at the current time and
returns a credential with timestamp now. -/
theorem create_credential_decision (evs : List CredentialEvent)
    (nodeID : NodeID) (ot : OperatorType) (now : Int)
    (lastCredTs credsCount : Int)
    (hmc : maxAndCount evs nodeID (now - credsQuotaWindow ot) .issued ot =
      (lastCredTs, credsCount)) :
    ((credTimestamp (createCredentialTx evs nodeID ot now).1 =
        some lastCredTs ∧
      (createCredentialTx evs nodeID ot now).2 = evs) ↔
      (lastCredTs + AuthValidityWindow ot > now ∧
        (lastCredTs + AuthValidityWindow ot - now > credsMinValidityWindow ∨
          credsCount = credsQuota ot))) ∧
    (¬(lastCredTs + AuthValidityWindow ot > now ∧
        (lastCredTs + AuthValidityWindow ot - now > credsMinValidityWindow ∨
          credsCount = credsQuota ot)) →
      credsCount < credsQuota ot →
      (createCredentialTx evs nodeID ot now).1 = .issued now ∧
      (createCredentialTx evs nodeID ot now).2 =
        evs ++ [⟨nodeID, now, .issued, ot⟩]) := by
  unfold createCredentialTx
  dsimp only
  rw [hmc]
  by_cases hcond : lastCredTs + AuthValidityWindow ot > now ∧
      (lastCredTs + AuthValidityWindow ot - now > credsMinValidityWindow ∨
        credsCount = credsQuota ot)
  · rw [if_pos hcond]
    exact ⟨⟨fun _ => hcond, fun _ => ⟨rfl, rfl⟩⟩, fun h => absurd hcond h⟩
  · rw [if_neg hcond]
    by_cases hq : credsCount ≥ credsQuota ot
    · rw [if_pos hq]
      refine ⟨⟨fun h => ?_, fun h => absurd h hcond⟩, fun _ hlt => ?_⟩
      · exact absurd h.1 (by simp [credTimestamp])
      · omega
    · rw [if_neg hq]
      refine ⟨⟨fun h => ?_, fun h => absurd h hcond⟩, fun _ _ => ⟨rfl, rfl⟩⟩
      have := congrArg List.length h.2
      simp at this

/-- Witness for claim C1 at concrete inputs: an empty event store and a
clock far past the (empty) last issuance, so a fresh credential at the
current time is issued and exactly one ISSUED event is appended. -/
theorem create_credential_decision_witness :
    (createCredentialTx [] 1 .rocketpool 1000000000).1 =
      .issued 1000000000 ∧
    (createCredentialTx [] 1 .rocketpool 1000000000).2 =
      [⟨1, 1000000000, .issued, .rocketpool⟩] :=
  (create_credential_decision [] 1 .rocketpool 1000000000 0 0 rfl).2
    (by decide) (by decide)

/-- Every operator type admits at least one credential per window. -/
theorem credsQuota_pos (ot : OperatorType) : 1 ≤ credsQuota ot := by
  cases ot <;> decide

/-- A CreateCredential transaction either leaves the event store unchanged
or appends exactly one ISSUED event at the current time, the latter only
when the in-window count was strictly below the quota. -/
theorem createCredentialTx_snd (evs : List CredentialEvent)
    (nodeID : NodeID) (ot : OperatorType) (now : Int) :
    (createCredentialTx evs nodeID ot now).2 = evs ∨
    ((createCredentialTx evs nodeID ot now).2 =
        evs ++ [⟨nodeID, now, .issued, ot⟩] ∧
      (maxAndCount evs nodeID (now - credsQuotaWindow ot) .issued ot).2 <
        credsQuota ot) := by
  unfold createCredentialTx
  dsimp only
  split_ifs with h1 h2
  · exact Or.inl rfl
  · exact Or.inl rfl
  · exact Or.inr ⟨rfl, by omega⟩

/-- In every reachable event store, all event timestamps are at most the
current time (the process clock is monotone and events are stamped with the
clock at insertion). -/
theorem reachable_ts_le {evs : List CredentialEvent} {t : Int}
    (h : Reachable evs t) : ∀ e ∈ evs, e.timestamp ≤ t := by
  induction h with
  | init t => intro e he; simp at he
  | request h nodeID ot hle ih =>
    intro e he
    rcases createCredentialTx_snd _ nodeID ot _ with hs | hs
    · rw [hs] at he
      exact le_trans (ih e he) hle
    · rw [hs.1] at he
      rcases List.mem_append.mp he with h1 | h1
      · exact le_trans (ih e h1) hle
      · rw [List.mem_singleton.mp h1]

/-- Core counting invariant: in every reachable event store, the number of
ISSUED events of one identity inside any half-open window of the quota
window length is at most the quota.  The step preserves it because the
transaction only inserts when the count over (now - window, now] is below
the quota, and any window containing the inserted time lies inside that
range for the existing events. -/
theorem reachable_window_countP {evs : List CredentialEvent} {t : Int}
    (h : Reachable evs t) (node : NodeID) (ot : OperatorType) (t0 : Int) :
    ((evs.countP fun e => eventMatches node t0 .issued ot e &&
        decide (e.timestamp ≤ t0 + credsQuotaWindow ot)) : Int) ≤
      credsQuota ot := by
  induction h with
  | init t =>
    simp only [List.countP_nil]
    have := credsQuota_pos ot
    omega
  | request h nodeID2 ot2 hle ih =>
    rename_i evs t t2
    rcases createCredentialTx_snd evs nodeID2 ot2 t2 with hs | ⟨hs, hcnt⟩
    · rw [hs]
      exact ih
    · rw [hs, List.countP_append]
      by_cases hm : (eventMatches node t0 .issued ot
          ⟨nodeID2, t2, .issued, ot2⟩ &&
          decide ((⟨nodeID2, t2, .issued, ot2⟩ :
            CredentialEvent).timestamp ≤ t0 + credsQuotaWindow ot)) = true
      · have hparts := hm
        unfold eventMatches at hparts
        simp only [Bool.and_eq_true, decide_eq_true_eq] at hparts
        obtain ⟨⟨⟨⟨hnode, hts⟩, hty⟩, hot⟩, hup⟩ := hparts
        rw [hnode, hot] at hcnt
        -- the existing in-window events are all counted by the query
        have hsub : evs.countP (fun e => eventMatches node t0 .issued ot e &&
            decide (e.timestamp ≤ t0 + credsQuotaWindow ot)) ≤
            evs.countP (eventMatches node (t2 - credsQuotaWindow ot)
              .issued ot) := by
          apply List.countP_mono_left
          intro e _ hpe
          unfold eventMatches at hpe ⊢
          simp only [Bool.and_eq_true, decide_eq_true_eq] at hpe ⊢
          obtain ⟨⟨⟨⟨he1, he2⟩, he3⟩, he4⟩, he5⟩ := hpe
          refine ⟨⟨⟨he1, ?_⟩, he3⟩, he4⟩
          omega
        have hcount : (maxAndCount evs node (t2 - credsQuotaWindow ot)
            .issued ot).2 =
            (evs.countP (eventMatches node (t2 - credsQuotaWindow ot)
              .issued ot) : Int) := by
          unfold maxAndCount
          dsimp only
          rw [List.countP_eq_length_filter]
        rw [hcount] at hcnt
        have hone : List.countP (fun e => eventMatches node t0 .issued ot e &&
            decide (e.timestamp ≤ t0 + credsQuotaWindow ot))
            [(⟨nodeID2, t2, .issued, ot2⟩ : CredentialEvent)] ≤ 1 := by
          rw [List.countP_cons, List.countP_nil]
          split_ifs <;> simp
        push_cast
        omega
      · have hz : List.countP (fun e => eventMatches node t0 .issued ot e &&
            decide (e.timestamp ≤ t0 + credsQuotaWindow ot))
            [(⟨nodeID2, t2, .issued, ot2⟩ : CredentialEvent)] = 0 := by
          simp only [List.countP_cons, List.countP_nil]
          rw [if_neg (by simpa using hm)]
        rw [hz]
        simpa using ih

/-- Claim C2: in every event store reachable by a sequence of serialised
CreateCredential transactions at non-decreasing times, the number of
distinct ISSUED event timestamps of one identity inside any half-open
window (t0, t0 + window] never exceeds the quota (the half-open reading
matches the strict timestamp comparison of the count query); and whenever
the reissue condition fails and the in-window count has reached the quota,
the transaction returns the AUTHORIZATION error and appends no event.  The
invariant relies on each read-then-insert being one atomic step, which the
single transaction on the single-writer database provides. -/
theorem issuance_quota_invariant :
    (∀ (evs : List CredentialEvent) (t : Int), Reachable evs t →
      ∀ (node : NodeID) (ot : OperatorType) (t0 : Int),
      ((((evs.filter fun e => eventMatches node t0 .issued ot e &&
          decide (e.timestamp ≤ t0 + credsQuotaWindow ot)).map
            fun e => e.timestamp).dedup.length : Int) ≤ credsQuota ot)) ∧
    (∀ (evs : List CredentialEvent) (nodeID : NodeID) (ot : OperatorType)
      (now lastCredTs credsCount : Int),
      maxAndCount evs nodeID (now - credsQuotaWindow ot) .issued ot =
        (lastCredTs, credsCount) →
      ¬(lastCredTs + AuthValidityWindow ot > now ∧
        (lastCredTs + AuthValidityWindow ot - now > credsMinValidityWindow ∨
          credsCount = credsQuota ot)) →
      credsCount ≥ credsQuota ot →
      createCredentialTx evs nodeID ot now = (.authorizationError, evs)) := by
  constructor
  · intro evs t h node ot t0
    have h1 : (((evs.filter fun e => eventMatches node t0 .issued ot e &&
        decide (e.timestamp ≤ t0 + credsQuotaWindow ot)).map
          fun e => e.timestamp).dedup.length : Int) ≤
        ((evs.countP fun e => eventMatches node t0 .issued ot e &&
          decide (e.timestamp ≤ t0 + credsQuotaWindow ot)) : Int) := by
      have h2 := (List.dedup_sublist ((evs.filter fun e =>
        eventMatches node t0 .issued ot e &&
          decide (e.timestamp ≤ t0 + credsQuotaWindow ot)).map
            fun e => e.timestamp)).length_le
      rw [List.length_map, ← List.countP_eq_length_filter] at h2
      exact_mod_cast h2
    exact le_trans h1 (reachable_window_countP h node ot t0)
  · intro evs nodeID ot now lastCredTs credsCount hmc hcond hq
    unfold createCredentialTx
    dsimp only
    rw [hmc]
    rw [if_neg hcond, if_pos hq]

/-- Witness for claim C2 at concrete inputs: the empty store satisfies the
window bound, and a ROCKETPOOL identity holding four stale in-window
credentials (quota 4, all expired past the reissue window) is refused with
the authorization error and no new event. -/
theorem issuance_quota_invariant_witness :
    (((([] : List CredentialEvent).filter fun e =>
        eventMatches 1 0 .issued .rocketpool e &&
        decide (e.timestamp ≤ 0 + credsQuotaWindow .rocketpool)).map
          fun e => e.timestamp).dedup.length : Int) ≤
      credsQuota .rocketpool ∧
    createCredentialTx
      [⟨2, 1, .issued, .rocketpool⟩, ⟨2, 2, .issued, .rocketpool⟩,
       ⟨2, 3, .issued, .rocketpool⟩, ⟨2, 4, .issued, .rocketpool⟩]
      2 .rocketpool 2000000 =
      (.authorizationError,
        [⟨2, 1, .issued, .rocketpool⟩, ⟨2, 2, .issued, .rocketpool⟩,
         ⟨2, 3, .issued, .rocketpool⟩, ⟨2, 4, .issued, .rocketpool⟩]) :=
  ⟨issuance_quota_invariant.1 [] 0 (Reachable.init 0) 1 .rocketpool 0,
   issuance_quota_invariant.2
     [⟨2, 1, .issued, .rocketpool⟩, ⟨2, 2, .issued, .rocketpool⟩,
      ⟨2, 3, .issued, .rocketpool⟩, ⟨2, 4, .issued, .rocketpool⟩]
     2 .rocketpool 2000000 4 4 (by decide) (by decide) (by decide)⟩

end RescueApi
